import Mathlib

/-!
Shallow embedding of the output pipeline of `src/output.js`
(lighthouse-ci-action): result grouping, gist archiving with
create-or-update deduplication, change-URL resolution, Slack/GitHub
check-run formatting and the `run` orchestrator.

JavaScript strings become `String`, arrays become `List`, numbers used as
statuses become `Int`, fallible steps (JSON.parse, network rejections)
become `Except`, and absent objects (`{}` placeholders) become `Option`.
External collaborators (file system, octokit, webhook) are passed in as
explicit data; the calls made against them are recorded as values.
-/

namespace LHCI

/-! ### JavaScript string primitives -/

/-- JS `String.prototype.split` on a one-character separator:
`"a/b".split('/') = ["a","b"]`, `"".split('/') = [""]`. -/
def jsSplitChar (sep : Char) (s : String) : List String :=
  (s.data.splitOn sep).map (fun l => String.mk l)

/-- JS `Array.prototype.join(sep)`: `[].join = ""`, `[a].join = a`. -/
def joinSep (sep : String) : List String → String
  | [] => ""
  | [s] => s
  | s :: rest => s ++ sep ++ joinSep sep rest

/-- JS `\w` character class: ASCII alphanumerics and underscore. -/
def isWordChar (c : Char) : Bool := c.isAlphanum || c == '_'

/-- The effect of `url.replace(/(^\w+:|^)\/\//, '')` on the character list:
strip a leading `scheme://` (scheme = one or more word characters) or a
bare leading `//`; otherwise leave the string unchanged. -/
def stripSchemeData (cs : List Char) : List Char :=
  let scheme := cs.takeWhile isWordChar
  let rest := cs.drop scheme.length
  if scheme.length != 0 && rest.take 3 == [':', '/', '/'] then rest.drop 3
  else if cs.take 2 == ['/', '/'] then cs.drop 2
  else cs

/-- `url.replace(/(^\w+:|^)\/\//, '')` from `uploadResultToGist`. -/
def stripSchemeSlashes (url : String) : String :=
  String.mk (stripSchemeData url.data)

/-! ### Data model -/

/-- One assertion result read from `assertion-results.json` (`LHResult`). -/
structure LHResult where
  auditId : String
  auditProperty : String
  auditTitle : String
  expected : String
  operator : String
  actual : String
  url : String
deriving DecidableEq

/-- The archive reference built by `uploadResultToGist` (`Gist` typedef):
note `id` is a list of strings because the code stores
`get(gist, 'data.id', '').split('/')`. -/
structure GistData where
  url : String
  id : List String
  sha : String
deriving DecidableEq

/-- A `Gist` value flowing through the pipeline: `none` models the empty
object `{}` placeholder, `some` a populated reference. -/
abbrev Gist := Option GistData

/-- The single error kind the embedding needs: a rejected `JSON.parse`. -/
inductive JsErr where
  | parseError
deriving DecidableEq

deriving instance DecidableEq for Except

/-! ### ResultStore reader (`getGroupedAssertionResultsByURL`) -/

/-- lodash `groupBy(results, 'url')`: association list keyed by `url`, keys
in first-seen order, each group in input order. -/
def groupByUrl (results : List LHResult) : List (String × List LHResult) :=
  results.foldl
    (fun acc r =>
      if acc.any (fun p => p.1 == r.url) then
        acc.map (fun p => if p.1 == r.url then (p.1, p.2 ++ [r]) else p)
      else acc ++ [(r.url, [r])])
    []

/-- The on-disk aggregate results file: `none` = file absent,
`some none` = present but `JSON.parse` rejects, `some (some rs)` = parsed
list of results. -/
abbrev AssertFile := Option (Option (List LHResult))

/-- `getGroupedAssertionResultsByURL`: absent file yields the empty
grouping (the code returns `[]`), malformed content propagates the parse
error, otherwise the results are grouped by `url`. -/
def getGroupedAssertionResultsByURL (file : AssertFile) :
    Except JsErr (List (String × List LHResult)) :=
  match file with
  | none => Except.ok []
  | some none => Except.error JsErr.parseError
  | some (some results) => Except.ok (groupByUrl results)

/-! ### Gist archiver (`uploadResultToGist`, `uploadResultsToGist`) -/

/-- One raw `lhr-<n>.json` file: its text content and the outcome of
`JSON.parse` plus `get(results, 'requestedUrl', ...)` — `parsed = none`
means `JSON.parse` throws, `some none` means the `requestedUrl` field is
missing, `some (some u)` is the inspected URL. -/
structure LhrFile where
  content : String
  parsed : Option (Option String)
deriving DecidableEq

/-- An existing gist returned by `octokit.gists.list()`: its id and the
names in its file set. -/
structure RemoteGist where
  id : String
  files : List String
deriving DecidableEq

/-- The response of `octokit.gists.create/update`: `data.id` and the
`version` strings of `data.history`. -/
structure GistResponse where
  id : String
  history : List String
deriving DecidableEq

/-- The content-store call performed by `uploadResultToGist`
(`octokit.gists[gistAction](gistParams)`). -/
inductive GistCall where
  | create
  | update (gist_id : String)
deriving DecidableEq

/-- The content-store environment: the existing gists listed for the
credential and the response returned to a create/update call. -/
structure GistStore where
  existing : List RemoteGist
  resp : GistResponse
deriving DecidableEq

/-- The predicate of the dedup `find`:
`gist => Object.keys(gist.files).filter(filename => filename === gistName).length`
(a nonzero count is truthy). -/
def gistHasFile (g : RemoteGist) (gistName : String) : Bool :=
  (g.files.filter (fun filename => filename == gistName)).length != 0

/-- The derived archive name
`lhci-action-lhr-<repo with / replaced by -> -<stripped url with / replaced by ->.json`. -/
def gistNameFor (githubRepo url : String) : String :=
  "lhci-action-lhr-" ++ joinSep "-" (jsSplitChar '/' githubRepo) ++ "-" ++
    joinSep "-" (jsSplitChar '/' (stripSchemeSlashes url)) ++ ".json"

/-- `uploadResultToGist`: missing token or path short-circuits to the empty
reference with no store call; a file that fails to parse rejects; otherwise
the derived name is searched in the listed gists, the matching entry (if
any) is updated in place and a new entry is created otherwise, and the
returned reference carries the split response id and the first history
version. The list component records the store calls made. -/
def uploadResultToGist (store : GistStore) (githubRepo token resultPath : String)
    (file : LhrFile) : Except JsErr (List GistCall × Gist) :=
  if token == "" || resultPath == "" then Except.ok ([], none)
  else
    match file.parsed with
    | none => Except.error JsErr.parseError
    | some requestedUrl =>
      let url := requestedUrl.getD ""
      let gistName := gistNameFor githubRepo url
      let existingGist := store.existing.find? (fun g => gistHasFile g gistName)
      let call := match existingGist with
        | some g => GistCall.update g.id
        | none => GistCall.create
      Except.ok ([call],
        some { url := url,
               id := jsSplitChar '/' store.resp.id,
               sha := (store.resp.history.head?).getD "" })

/-- `uploadResultsToGist`: without a token resolves to the single empty
placeholder; otherwise every file is uploaded and, as with `Promise.all`,
any single rejection rejects the whole batch. -/
def uploadResultsToGist (store : GistStore) (githubRepo token : String)
    (files : List (String × LhrFile)) : Except JsErr (List Gist) :=
  if token == "" then Except.ok [none]
  else files.mapM (fun pf =>
    (uploadResultToGist store githubRepo token pf.1 pf.2).map (fun r => r.2))

/-! ### Change reference resolver (`getChangesUrl`) -/

/-- An open pull request as returned by `octokit.pulls.list`. -/
structure PullRequest where
  head_sha : String
  html_url : String
deriving DecidableEq

/-- The `ChangesURL` record: `sha` is the commit link, `pullRequest` the
pull-request link (empty string when absent). -/
structure ChangesURL where
  pullRequest : String
  sha : String
deriving DecidableEq

/-- `getChangesUrl`: the commit link is always assembled; with a token the
first open pull request whose `head.sha` equals the current sha supplies
the pull-request link (its `html_url`, defaulting to the empty string). -/
def getChangesUrl (githubRepo githubSHA githubToken : String)
    (pulls : List PullRequest) : ChangesURL :=
  let shaChangesURL := joinSep "/" ["https://github.com", githubRepo, "commit", githubSHA]
  if githubToken == "" then
    { pullRequest := "", sha := shaChangesURL }
  else
    let pullRequest := pulls.find? (fun p => p.head_sha == githubSHA)
    { pullRequest := (pullRequest.map PullRequest.html_url).getD "",
      sha := shaChangesURL }

/-! ### Formatter (`formatAssertResults`, `getLHReportURL`) -/

/-- A `{title, value}` summary field. -/
structure SummaryField where
  title : String
  value : String
deriving DecidableEq

/-- The truncation marker pushed after the first two fields. -/
def ellipsisField : SummaryField := { title := "...", value := "" }

/-- The blocks pushed into the attachments accumulator: a section
(`{text, color, fields}`), a report-link block
(`{title, title_link, color}`), or the empty object. -/
inductive Block where
  | sec (text : String) (color : String) (fields : List SummaryField)
  | link (title : String) (title_link : String) (color : String)
  | empty
deriving DecidableEq

/-- The field rendered for one result: the phrase is `' less then'` for the
`'<='` operator and `' greater than'` otherwise, exactly as the code
spells them. -/
def resultField (res : LHResult) : SummaryField :=
  { title := res.auditId ++ "." ++ res.auditProperty,
    value := res.auditTitle ++ " \n _Expected " ++ res.expected ++ " " ++
      (if res.operator == "<=" then " less then" else " greater than") ++
      " actual " ++ res.actual ++ "_" }

/-- The predicate of `find(gists, ({url}) => url === resultUrl)`: the empty
placeholder never matches (destructuring `{}` yields `undefined`). -/
def gistUrlMatches (g : Gist) (resultUrl : String) : Bool :=
  match g with
  | none => false
  | some d => d.url == resultUrl

/-- `getLHReportURL`: empty for the empty gist, otherwise the fixed viewer
template; interpolating the id list mimics JS array-to-string (join by
comma). -/
def getLHReportURL (gist : Gist) : String :=
  match gist with
  | none => ""
  | some d =>
    "https://googlechrome.github.io/lighthouse/viewer/?gist=" ++
      joinSep "," d.id ++ "/" ++ d.sha

/-- The body of the `reduce` in `formatAssertResults` for one URL group:
the section block (headline, run-global color, at most two rendered fields
plus the ellipsis marker when non-empty) followed by the report-link block
(the empty object when no gist matches the group's URL). -/
def formatGroup (status : Int) (gists : List Gist) (groupedResult : List LHResult) :
    List Block :=
  let color := if status = 0 then "good" else "danger"
  let resultUrl := (Option.map LHResult.url groupedResult.head?).getD ""
  let gist : Gist := (gists.find? (fun g => gistUrlMatches g resultUrl)).getD none
  let results := groupedResult.map resultField
  let sliced := results.take 2
  let fields := if sliced.length > 0 then sliced ++ [ellipsisField] else sliced
  let reportURL := getLHReportURL gist
  let reportUrlField := if reportURL != "" then
      Block.link "View Detailed Lighthouse Report" reportURL color
    else Block.empty
  [Block.sec (toString (groupedResult.length + 1) ++ " result(s) for " ++ resultUrl)
      color fields,
   reportUrlField]

/-- `formatAssertResults`: `Object.values` of the grouping, reduced by
appending each group's two blocks. -/
def formatAssertResults (groupedResults : List (String × List LHResult))
    (status : Int) (gists : List Gist) : List Block :=
  (groupedResults.map Prod.snd).foldl
    (fun acc groupedResult => acc ++ formatGroup status gists groupedResult) []

/-! ### Dispatcher (`run`) -/

/-- The observable operations of one run: the three concurrent gather
steps and the two channel adapter calls, the latter carrying the change
reference and the formatted blocks they are built from. -/
inductive Effect where
  | readAssertionResults
  | resolveChanges
  | uploadGists
  | slackSend (changes : ChangesURL) (attachments : List Block)
  | githubCheck (changes : ChangesURL) (blocks : List Block)
deriving DecidableEq

/-- Whether an effect is a notification-channel adapter call. -/
def isChannelCall : Effect → Bool
  | Effect.slackSend _ _ => true
  | Effect.githubCheck _ _ => true
  | _ => false

/-- The effects of the concurrent gather phase (`Promise.all`). -/
def gatherEffects : List Effect :=
  [Effect.readAssertionResults, Effect.resolveChanges, Effect.uploadGists]

/-- Everything `run` reads from configuration and the outside world. -/
structure RunInput where
  logLevel : String
  slackWebhookUrl : String
  applicationGithubToken : String
  personalGithubToken : String
  githubNotificationEnabled : Bool
  slackNotificationEnabled : Bool
  githubRepo : String
  githubSHA : String
  assertionResultsFile : AssertFile
  lhrFiles : List (String × LhrFile)
  store : GistStore
  pulls : List PullRequest
deriving DecidableEq

/-- `run({status})`: gate on log level, gather concurrently (a rejection of
reading or archiving rejects the run after the gather effects happened),
then fan out to the enabled channels. The result records the effect trace
and the promise outcome. -/
def run (env : RunInput) (status : Int) : List Effect × Except JsErr Unit :=
  let shouldRunOutput :=
    env.logLevel == "info" || (env.logLevel == "error" && status != 0)
  if shouldRunOutput then
    match getGroupedAssertionResultsByURL env.assertionResultsFile,
        uploadResultsToGist env.store env.githubRepo env.personalGithubToken env.lhrFiles with
    | Except.error e, _ => (gatherEffects, Except.error e)
    | Except.ok _, Except.error e => (gatherEffects, Except.error e)
    | Except.ok groupedResults, Except.ok gists =>
      let slackEnabled := env.slackNotificationEnabled && env.slackWebhookUrl != ""
      let githubEnabled := env.githubNotificationEnabled && env.applicationGithubToken != ""
      let changesURL :=
        getChangesUrl env.githubRepo env.githubSHA env.personalGithubToken env.pulls
      let blocks := formatAssertResults groupedResults status gists
      if githubEnabled && slackEnabled then
        (gatherEffects ++ [Effect.slackSend changesURL blocks,
          Effect.githubCheck changesURL blocks], Except.ok ())
      else if githubEnabled then
        (gatherEffects ++ [Effect.githubCheck changesURL blocks], Except.ok ())
      else if slackEnabled then
        (gatherEffects ++ [Effect.slackSend changesURL blocks], Except.ok ())
      else
        (gatherEffects, Except.ok ())
  else ([], Except.ok ())

/-! ### Concrete fixtures used to instantiate the theorems -/

/-- A store whose listing holds one gist carrying the archive name derived
from repository `o/r` and URL `https://a.com/`. -/
def wStore : GistStore :=
  ⟨[⟨"g9", ["lhci-action-lhr-o-r-a.com-.json"]⟩], ⟨"respid", ["v7"]⟩⟩

/-- The same listing with an empty response history. -/
def wStore2 : GistStore :=
  ⟨[⟨"g9", ["lhci-action-lhr-o-r-a.com-.json"]⟩], ⟨"respid", []⟩⟩

/-- A raw result file that parses and carries `requestedUrl`. -/
def wFile : LhrFile := ⟨"raw", some (some "https://a.com/")⟩

/-- One concrete assertion result. -/
def wRes : LHResult :=
  ⟨"first-contentful-paint", "maxNumericValue", "First Contentful Paint",
   "2000", "<=", "3000", "https://a.com/"⟩

/-- Log level outside the gate. -/
def quietEnv : RunInput :=
  ⟨"warn", "", "", "", false, false, "o/r", "abc", none, [], ⟨[], ⟨"", []⟩⟩, []⟩

/-- Log level `error`, both channels disabled, no results file. -/
def disabledEnv : RunInput :=
  ⟨"error", "", "", "", false, false, "o/r", "abc", none, [], ⟨[], ⟨"", []⟩⟩, []⟩

/-- Log level `info`, no results file, archiving disabled. -/
def missingEnv : RunInput :=
  ⟨"info", "", "", "", false, false, "o/r", "abc", none, [], ⟨[], ⟨"", []⟩⟩, []⟩

/-- Log level `info`, archiving credential present and one malformed raw
result file. -/
def badArchiveEnv : RunInput :=
  ⟨"info", "", "", "tok", false, false, "o/r", "abc", none,
   [("lhr-2.json", ⟨"oops", none⟩)], wStore, []⟩

/-! ### Helper lemmas -/

theorem foldl_append_acc {α β : Type} (f : α → List β) (l : List α) (acc : List β) :
    l.foldl (fun a g => a ++ f g) acc = acc ++ l.foldl (fun a g => a ++ f g) [] := by
  induction l generalizing acc with
  | nil => simp
  | cons h t ih =>
    simp only [List.foldl_cons]
    rw [ih (acc ++ f h), ih ([] ++ f h)]
    simp [List.append_assoc]

/-- The `reduce` of `formatAssertResults` splits around any member group:
the output is the concatenation of the per-group block pairs. -/
theorem formatAssertResults_decomp (grs : List (String × List LHResult)) (status : Int)
    (gists : List Gist) (g : List LHResult) (hmem : g ∈ grs.map Prod.snd) :
    ∃ b₁ b₂, formatAssertResults grs status gists
      = b₁ ++ formatGroup status gists g ++ b₂ := by
  obtain ⟨s, t, hst⟩ := List.append_of_mem hmem
  refine ⟨s.foldl (fun a x => a ++ formatGroup status gists x) [],
          t.foldl (fun a x => a ++ formatGroup status gists x) [], ?_⟩
  unfold formatAssertResults
  rw [hst, List.foldl_append, List.foldl_cons]
  rw [foldl_append_acc (formatGroup status gists) t]

theorem append_ne_empty_left (a b : String) (h : a ≠ "") : a ++ b ≠ "" := by
  intro hc
  apply h
  have hlen := congrArg String.length hc
  rw [String.length_append] at hlen
  have ha : a.length = 0 := by
    have h0 : ("" : String).length = 0 := rfl
    omega
  cases a with
  | mk data =>
    cases data with
    | nil => rfl
    | cons c cs => simp [String.length] at ha

/-! ### C2 and C3: section fields and headline -/

/-- C2: for every URL group passed to `formatAssertResults`, the rendered
section has `min 2 groupSize` fields plus exactly one trailing ellipsis
field when the group is non-empty, and no fields (and no ellipsis) when the
group is empty. -/
theorem c2_section_fields (grs : List (String × List LHResult)) (status : Int)
    (gists : List Gist) (g : List LHResult) (hmem : g ∈ grs.map Prod.snd) :
    (∃ b₁ b₂, formatAssertResults grs status gists
        = b₁ ++ formatGroup status gists g ++ b₂)
  ∧ ∃ text color fields rest,
      formatGroup status gists g = [Block.sec text color fields, rest]
      ∧ (g.length = 0 → fields = [])
      ∧ (0 < g.length →
          fields = (g.map resultField).take 2 ++ [ellipsisField]
          ∧ fields.length = min 2 g.length + 1
          ∧ fields.getLast? = some ellipsisField) := by
  refine ⟨formatAssertResults_decomp grs status gists g hmem, ?_⟩
  rcases g with _ | ⟨a, as⟩
  · exact ⟨_, _, [], _, rfl, fun _ => rfl, by simp⟩
  · have hpos : 0 < (((a :: as).map resultField).take 2).length := by
      simp [List.length_take, List.length_map]
    have key : ∃ t c r, formatGroup status gists (a :: as)
        = [Block.sec t c (((a :: as).map resultField).take 2 ++ [ellipsisField]), r] := by
      simp only [formatGroup, if_pos hpos]
      exact ⟨_, _, _, rfl⟩
    obtain ⟨t, c, r, heq⟩ := key
    refine ⟨t, c, _, r, heq, ?_, ?_⟩
    · intro h
      simp at h
    · intro _
      refine ⟨rfl, ?_, List.getLast?_concat _⟩
      simp
      omega

/-- C3: for every URL group passed to `formatAssertResults`, the rendered
section's headline is `"{groupSize + 1} result(s) for {url}"`: the
displayed count is one greater than the group's size. -/
theorem c3_headline_off_by_one (grs : List (String × List LHResult)) (status : Int)
    (gists : List Gist) (g : List LHResult) (hmem : g ∈ grs.map Prod.snd) :
    (∃ b₁ b₂, formatAssertResults grs status gists
        = b₁ ++ formatGroup status gists g ++ b₂)
  ∧ ∃ color fields rest,
      formatGroup status gists g
        = [Block.sec (toString (g.length + 1) ++ " result(s) for "
              ++ (Option.map LHResult.url g.head?).getD "") color fields, rest] :=
  ⟨formatAssertResults_decomp grs status gists g hmem, _, _, _, rfl⟩

/-! ### C9: report-link block -/

/-- C9: for every URL group, a gist whose `url` matches the group's URL
yields a report-link block with the fixed viewer template embedding that
gist's id and version; with no matching gist the pushed block is the empty
object, carrying no link content. -/
theorem c9_report_link (grs : List (String × List LHResult)) (status : Int)
    (gists : List Gist) (g : List LHResult) (hmem : g ∈ grs.map Prod.snd) :
    (∃ b₁ b₂, formatAssertResults grs status gists
        = b₁ ++ formatGroup status gists g ++ b₂)
  ∧ ((∃ x ∈ gists, gistUrlMatches x ((Option.map LHResult.url g.head?).getD "") = true) →
      ∃ d secBlock,
        gists.find? (fun x => gistUrlMatches x ((Option.map LHResult.url g.head?).getD ""))
          = some (some d)
        ∧ formatGroup status gists g
          = [secBlock,
             Block.link "View Detailed Lighthouse Report"
               ("https://googlechrome.github.io/lighthouse/viewer/?gist="
                 ++ joinSep "," d.id ++ "/" ++ d.sha)
               (if status = 0 then "good" else "danger")])
  ∧ ((∀ x ∈ gists, gistUrlMatches x ((Option.map LHResult.url g.head?).getD "") = false) →
      ∃ secBlock, formatGroup status gists g = [secBlock, Block.empty]) := by
  refine ⟨formatAssertResults_decomp grs status gists g hmem, ?_, ?_⟩
  · intro hex
    have hs : (gists.find?
        (fun x => gistUrlMatches x ((Option.map LHResult.url g.head?).getD ""))).isSome :=
      List.find?_isSome.mpr hex
    obtain ⟨x0, hx0⟩ := Option.isSome_iff_exists.mp hs
    have hpx := List.find?_some hx0
    cases x0 with
    | none => simp [gistUrlMatches] at hpx
    | some d =>
      refine ⟨d, ?_⟩
      have hne : ("https://googlechrome.github.io/lighthouse/viewer/?gist="
          ++ joinSep "," d.id ++ "/" ++ d.sha) ≠ "" :=
        append_ne_empty_left _ _ (append_ne_empty_left _ _ (append_ne_empty_left _ _ (by decide)))
      have hbne : (("https://googlechrome.github.io/lighthouse/viewer/?gist="
          ++ joinSep "," d.id ++ "/" ++ d.sha) != "") = true := bne_iff_ne.mpr hne
      have hblock : ∃ secBlock, formatGroup status gists g
          = [secBlock,
             Block.link "View Detailed Lighthouse Report"
               ("https://googlechrome.github.io/lighthouse/viewer/?gist="
                 ++ joinSep "," d.id ++ "/" ++ d.sha)
               (if status = 0 then "good" else "danger")] := by
        simp only [formatGroup, hx0, Option.getD_some, getLHReportURL, hbne, if_true]
        exact ⟨_, rfl⟩
      obtain ⟨sb, hsb⟩ := hblock
      exact ⟨sb, hx0, hsb⟩
  · intro hnone
    have hfind : gists.find?
        (fun x => gistUrlMatches x ((Option.map LHResult.url g.head?).getD "")) = none := by
      rw [List.find?_eq_none]
      intro x hx
      simp [hnone x hx]
    simp only [formatGroup, hfind, Option.getD_none, getLHReportURL, bne_self_eq_false,
      Bool.false_eq_true, if_false]
    exact ⟨_, rfl⟩

/-! ### C8: comparison phrase (code bug: `less then`) -/

/-- C8: at the failing input (operator `"<="`) the code renders the
misspelled phrase `less then`, not `less than` as claimed; the
`greater than` branch behaves as claimed. -/
theorem c8_less_then_output :
    (resultField ⟨"first-contentful-paint", "maxNumericValue", "First Contentful Paint",
        "2000", "<=", "3000", "https://example.com/"⟩).value
      = "First Contentful Paint \n _Expected 2000  less then actual 3000_"
  ∧ (resultField ⟨"speed-index", "minScore", "Speed Index",
        "0.9", "=>", "0.5", "https://example.com/"⟩).value
      = "Speed Index \n _Expected 0.9  greater than actual 0.5_" :=
  ⟨rfl, rfl⟩

/-! ### C5: change reference links -/

/-- C5 counterexample: with a credential and an open pull request whose
head sha matches the current commit, both the commit link and the
pull-request link of the resolved `ChangesURL` are non-empty, so it is
false that exactly one of the two links is non-empty. -/
theorem c5_counterexample :
    ¬(((getChangesUrl "o/r" "abc" "tok" [⟨"abc", "https://github.com/o/r/pull/1"⟩]).sha ≠ ""
        ∧ (getChangesUrl "o/r" "abc" "tok"
            [⟨"abc", "https://github.com/o/r/pull/1"⟩]).pullRequest = "")
      ∨ ((getChangesUrl "o/r" "abc" "tok" [⟨"abc", "https://github.com/o/r/pull/1"⟩]).sha = ""
        ∧ (getChangesUrl "o/r" "abc" "tok"
            [⟨"abc", "https://github.com/o/r/pull/1"⟩]).pullRequest ≠ "")) := by
  decide

/-- C5 amended: the commit link is always non-empty, and the pull-request
link is non-empty exactly when a credential is supplied and the first open
pull request whose head sha equals the current sha has a non-empty
`html_url`; so at least one (not exactly one) link is non-empty. -/
theorem c5_amended_links (repo sha token : String) (pulls : List PullRequest) :
    (getChangesUrl repo sha token pulls).sha ≠ ""
  ∧ ((getChangesUrl repo sha token pulls).pullRequest ≠ ""
      ↔ token ≠ "" ∧ ∃ p, pulls.find? (fun q => q.head_sha == sha) = some p
          ∧ p.html_url ≠ "") := by
  by_cases ht : token = ""
  · have hb : (token == "") = true := beq_iff_eq.mpr ht
    constructor
    · simp only [getChangesUrl, hb, if_true]
      exact append_ne_empty_left _ _ (by decide)
    · simp only [getChangesUrl, hb, if_true]
      simp [ht]
  · have hb : (token == "") = false := beq_eq_false_iff_ne.mpr ht
    constructor
    · simp only [getChangesUrl, hb, Bool.false_eq_true, if_false]
      exact append_ne_empty_left _ _ (by decide)
    · simp only [getChangesUrl, hb, Bool.false_eq_true, if_false]
      cases hf : pulls.find? (fun q => q.head_sha == sha) with
      | none => simp [ht]
      | some p =>
        simp only [Option.map_some', Option.getD_some]
        constructor
        · intro h
          exact ⟨ht, p, rfl, h⟩
        · rintro ⟨-, p', hp', h'⟩
          cases Option.some.inj hp'
          exact h'

/-- C5 amended, instantiated with no credential and no pull requests. -/
theorem c5_amended_links_witness :
    (getChangesUrl "o/r" "abc" "" []).sha ≠ ""
  ∧ ((getChangesUrl "o/r" "abc" "" []).pullRequest ≠ ""
      ↔ ("" : String) ≠ ""
          ∧ ∃ p, ([] : List PullRequest).find? (fun q => q.head_sha == "abc") = some p
              ∧ p.html_url ≠ "") :=
  c5_amended_links "o/r" "abc" "" []

/-! ### C1, C10, C4: gist archiving -/

/-- The code's nonzero-filter-count membership test agrees with list
membership of the derived name in the entry's file set. -/
theorem gistHasFile_iff (g : RemoteGist) (name : String) :
    gistHasFile g name = true ↔ name ∈ g.files := by
  simp [gistHasFile, List.length_eq_zero, List.filter_eq_nil_iff]

theorem jsSplitChar_no_sep (sep : Char) (s : String) (h : sep ∉ s.data) :
    jsSplitChar sep s = [s] := by
  have hsplit : s.data.splitOn sep = [s.data] := by
    unfold List.splitOn
    apply List.splitOnP_eq_single
    intro x hx
    simp only [beq_iff_eq]
    intro hxe
    exact h (hxe ▸ hx)
  unfold jsSplitChar
  rw [hsplit]
  cases s with
  | mk d => rfl

/-- With a token, a path and a parsed file, `uploadResultToGist` makes one
store call chosen by the dedup search and returns the assembled
reference. -/
theorem uploadResultToGist_eq (store : GistStore) (repo token path : String)
    (file : LhrFile) (ru : Option String) (htok : token ≠ "") (hpath : path ≠ "")
    (hparse : file.parsed = some ru) :
    uploadResultToGist store repo token path file
      = Except.ok
          ([match store.existing.find?
              (fun x => gistHasFile x (gistNameFor repo (ru.getD ""))) with
            | some g => GistCall.update g.id
            | none => GistCall.create],
           some { url := ru.getD "",
                  id := jsSplitChar '/' store.resp.id,
                  sha := (store.resp.history.head?).getD "" }) := by
  have h1 : (token == "") = false := beq_eq_false_iff_ne.mpr htok
  have h2 : (path == "") = false := beq_eq_false_iff_ne.mpr hpath
  simp only [uploadResultToGist, h1, h2, Bool.or_self, Bool.false_eq_true, if_false, hparse]

/-- C1: when some existing archive entry's file set contains the derived
name, the store call is `update` with the first such entry's id and never
`create`; when no entry contains the name, the call is `create`. -/
theorem c1_dedup_update_or_create (store : GistStore) (repo token path : String)
    (file : LhrFile) (ru : Option String) (htok : token ≠ "") (hpath : path ≠ "")
    (hparse : file.parsed = some ru) :
    ((∃ g ∈ store.existing, gistNameFor repo (ru.getD "") ∈ g.files) →
      ∃ g, store.existing.find?
            (fun x => gistHasFile x (gistNameFor repo (ru.getD ""))) = some g
        ∧ gistNameFor repo (ru.getD "") ∈ g.files
        ∧ (∃ ref, uploadResultToGist store repo token path file
            = Except.ok ([GistCall.update g.id], some ref))
        ∧ GistCall.create ∉ [GistCall.update g.id])
  ∧ ((∀ g ∈ store.existing, gistNameFor repo (ru.getD "") ∉ g.files) →
      ∃ ref, uploadResultToGist store repo token path file
        = Except.ok ([GistCall.create], some ref)) := by
  have hstep := uploadResultToGist_eq store repo token path file ru htok hpath hparse
  constructor
  · intro hex
    have hs : (store.existing.find?
        (fun x => gistHasFile x (gistNameFor repo (ru.getD "")))).isSome := by
      apply List.find?_isSome.mpr
      obtain ⟨g, hg, hm⟩ := hex
      exact ⟨g, hg, (gistHasFile_iff g _).mpr hm⟩
    obtain ⟨g0, hfind⟩ := Option.isSome_iff_exists.mp hs
    have hp := List.find?_some hfind
    have hmem0 : gistNameFor repo (ru.getD "") ∈ g0.files := (gistHasFile_iff g0 _).mp hp
    refine ⟨g0, hfind, hmem0,
      ⟨{ url := ru.getD "", id := jsSplitChar '/' store.resp.id,
         sha := (store.resp.history.head?).getD "" }, ?_⟩, by simp⟩
    rw [hstep, hfind]
  · intro hnone
    have hfind : store.existing.find?
        (fun x => gistHasFile x (gistNameFor repo (ru.getD ""))) = none := by
      rw [List.find?_eq_none]
      intro x hx
      simp only [Bool.not_eq_true]
      rw [← Bool.not_eq_true, gistHasFile_iff]
      exact hnone x hx
    refine ⟨{ url := ru.getD "", id := jsSplitChar '/' store.resp.id,
              sha := (store.resp.history.head?).getD "" }, ?_⟩
    rw [hstep, hfind]

/-- C10: the reference returned for a successful upload stores under `id`
the list obtained by splitting the response id on `/` (a one-element list
when the id has no slash) and under `sha` the first history version,
defaulting to the empty string when the history is empty. -/
theorem c10_reference_shape (store : GistStore) (repo token path : String)
    (file : LhrFile) (ru : Option String) (htok : token ≠ "") (hpath : path ≠ "")
    (hparse : file.parsed = some ru) :
    (∃ calls, uploadResultToGist store repo token path file
        = Except.ok (calls,
            some { url := ru.getD "",
                   id := jsSplitChar '/' store.resp.id,
                   sha := (store.resp.history.head?).getD "" }))
  ∧ ('/' ∉ store.resp.id.data → jsSplitChar '/' store.resp.id = [store.resp.id])
  ∧ (store.resp.history = [] → (store.resp.history.head?).getD "" = "") := by
  refine ⟨⟨_, uploadResultToGist_eq store repo token path file ru htok hpath hparse⟩, ?_, ?_⟩
  · intro h
    exact jsSplitChar_no_sep _ _ h
  · intro h
    rw [h]
    rfl

/-- C4 amended: per-file failures are not absorbed: a raw file that fails
to parse rejects its upload, hence the whole `Promise.all` batch and the
run; a missing `requestedUrl` is not a failure and yields a reference with
empty url; the empty reference arises exactly from a missing token or
path, with no store call. -/
theorem c4_failures_propagate (store : GistStore) (repo token path : String)
    (file : LhrFile) :
    (token ≠ "" → path ≠ "" → file.parsed = none →
      uploadResultToGist store repo token path file = Except.error JsErr.parseError)
  ∧ (token ≠ "" → path ≠ "" → file.parsed = some none →
      ∃ calls d, uploadResultToGist store repo token path file
          = Except.ok (calls, some d) ∧ d.url = "")
  ∧ (∀ calls, uploadResultToGist store repo token path file = Except.ok (calls, none)
      ↔ ((token = "" ∨ path = "") ∧ calls = []))
  ∧ (∀ env : RunInput, ∀ status : Int, ∀ e : JsErr,
      (env.logLevel = "info" ∨ (env.logLevel = "error" ∧ status ≠ 0)) →
      uploadResultsToGist env.store env.githubRepo env.personalGithubToken env.lhrFiles
        = Except.error e →
      (run env status).2 = Except.error e) := by
  refine ⟨?_, ?_, ?_, ?_⟩
  · intro htok hpath hparse
    have h1 : (token == "") = false := beq_eq_false_iff_ne.mpr htok
    have h2 : (path == "") = false := beq_eq_false_iff_ne.mpr hpath
    simp only [uploadResultToGist, h1, h2, Bool.or_self, Bool.false_eq_true, if_false, hparse]
  · intro htok hpath hparse
    exact ⟨_, _, uploadResultToGist_eq store repo token path file none htok hpath hparse, rfl⟩
  · intro calls
    have hcase : (token = "" ∨ path = "") →
        uploadResultToGist store repo token path file = Except.ok ([], none) := by
      intro htp
      have hb : (token == "" || path == "") = true := by
        cases htp with
        | inl h' => simp [h']
        | inr h' => simp [h']
      simp only [uploadResultToGist, hb, eq_self_iff_true, if_true]
    constructor
    · intro h
      by_cases htok : token = ""
      · rw [hcase (Or.inl htok)] at h
        have h2 := Except.ok.inj h
        exact ⟨Or.inl htok, (congrArg Prod.fst h2).symm⟩
      · by_cases hpath : path = ""
        · rw [hcase (Or.inr hpath)] at h
          have h2 := Except.ok.inj h
          exact ⟨Or.inr hpath, (congrArg Prod.fst h2).symm⟩
        · cases hparse : file.parsed with
          | none =>
            have h1 : (token == "") = false := beq_eq_false_iff_ne.mpr htok
            have h2 : (path == "") = false := beq_eq_false_iff_ne.mpr hpath
            simp only [uploadResultToGist, h1, h2, Bool.or_self, Bool.false_eq_true,
              if_false, hparse] at h
            exact Except.noConfusion h
          | some ru =>
            rw [uploadResultToGist_eq store repo token path file ru htok hpath hparse] at h
            have h2 := congrArg Prod.snd (Except.ok.inj h)
            exact Option.noConfusion h2
    · rintro ⟨htp, rfl⟩
      exact hcase htp
  · intro env status e hgate herr
    have hb : (env.logLevel == "info" || (env.logLevel == "error" && status != 0)) = true := by
      cases hgate with
      | inl h => simp [h]
      | inr h => simp [h.1, h.2, bne_iff_ne]
    cases e
    simp only [run, hb, if_true]
    cases hg : getGroupedAssertionResultsByURL env.assertionResultsFile with
    | error e' => cases e'; rfl
    | ok gr => rw [herr]

/-- C4 counterexample: a malformed raw result file does not yield an empty
reference for that file: it rejects the whole archiving batch (taking the
other file down with it) and, when the gate passes, the run itself rejects
with the same error. -/
theorem c4_counterexample :
    uploadResultsToGist wStore "o/r" "tok"
      [("lhr-1.json", ⟨"x", some (some "https://a.com/")⟩), ("lhr-2.json", ⟨"oops", none⟩)]
      = Except.error JsErr.parseError
  ∧ (run badArchiveEnv 1).2 = Except.error JsErr.parseError := by
  exact ⟨by decide, by decide⟩

/-! ### C6 and C7: the run gate and the missing aggregate file -/

/-- C6: `run` is a complete no-op (empty effect trace, immediate success)
unless the log level is `info` or it is `error` with a non-zero status;
and with log level `error`, non-zero status and both channels disabled, no
channel adapter is invoked and (when reading and archiving succeed) the
run resolves after the gather phase alone. -/
theorem c6_run_gate (env : RunInput) (status : Int) :
    (¬(env.logLevel = "info" ∨ (env.logLevel = "error" ∧ status ≠ 0)) →
      run env status = ([], Except.ok ()))
  ∧ (env.logLevel = "error" → status ≠ 0 →
      (env.slackNotificationEnabled && env.slackWebhookUrl != "") = false →
      (env.githubNotificationEnabled && env.applicationGithubToken != "") = false →
      (∀ e ∈ (run env status).1, isChannelCall e = false)
      ∧ (∀ gr gists,
          getGroupedAssertionResultsByURL env.assertionResultsFile = Except.ok gr →
          uploadResultsToGist env.store env.githubRepo env.personalGithubToken env.lhrFiles
            = Except.ok gists →
          run env status = (gatherEffects, Except.ok ()))) := by
  constructor
  · intro hn
    push_neg at hn
    obtain ⟨h1, h2⟩ := hn
    have hb : (env.logLevel == "info" || (env.logLevel == "error" && status != 0)) = false := by
      have hb1 : (env.logLevel == "info") = false := beq_eq_false_iff_ne.mpr h1
      by_cases he : env.logLevel = "error"
      · have hs0 : status = 0 := h2 he
        simp [hb1, hs0]
      · have hb2 : (env.logLevel == "error") = false := beq_eq_false_iff_ne.mpr he
        simp [hb1, hb2]
    simp only [run, hb, Bool.false_eq_true, if_false]
  · intro herr hs hsl hgh
    have hb : (env.logLevel == "info" || (env.logLevel == "error" && status != 0)) = true := by
      simp [herr, bne_iff_ne, hs]
    have htr : (run env status).1 = gatherEffects := by
      simp only [run, hb, eq_self_iff_true, if_true]
      cases hg : getGroupedAssertionResultsByURL env.assertionResultsFile with
      | error e' => rfl
      | ok gr =>
        cases hu : uploadResultsToGist env.store env.githubRepo
            env.personalGithubToken env.lhrFiles with
        | error e' => rfl
        | ok gists =>
          simp only [hsl, hgh, Bool.false_and, Bool.false_eq_true, if_false]
    constructor
    · intro e he
      rw [htr] at he
      simp only [gatherEffects, List.mem_cons, List.not_mem_nil, or_false] at he
      rcases he with rfl | rfl | rfl <;> rfl
    · intro gr gists hg hu
      simp only [run, hb, eq_self_iff_true, if_true, hg, hu]
      simp only [hsl, hgh, Bool.false_and, Bool.false_eq_true, if_false]

/-- C7: when the aggregate assertion-results file is absent, loading the
grouped results yields the empty grouping (not an error); under the gate
and a succeeding archive phase, `run` still resolves successfully and its
trace contains the change-reference resolution. -/
theorem c7_missing_aggregate (env : RunInput) (status : Int)
    (hmiss : env.assertionResultsFile = none)
    (hgate : env.logLevel = "info" ∨ (env.logLevel = "error" ∧ status ≠ 0))
    (harch : ∃ gists, uploadResultsToGist env.store env.githubRepo
        env.personalGithubToken env.lhrFiles = Except.ok gists) :
    getGroupedAssertionResultsByURL env.assertionResultsFile = Except.ok []
  ∧ (run env status).2 = Except.ok ()
  ∧ Effect.resolveChanges ∈ (run env status).1 := by
  obtain ⟨gists, hu⟩ := harch
  have hgr : getGroupedAssertionResultsByURL env.assertionResultsFile = Except.ok [] := by
    rw [hmiss]
    rfl
  have hb : (env.logLevel == "info" || (env.logLevel == "error" && status != 0)) = true := by
    cases hgate with
    | inl h => simp [h]
    | inr h => simp [h.1, h.2, bne_iff_ne]
  refine ⟨hgr, ?_, ?_⟩
  · simp only [run, hb, eq_self_iff_true, if_true, hgr, hu]
    split
    · rfl
    · split
      · rfl
      · split
        · rfl
        · rfl
  · simp only [run, hb, eq_self_iff_true, if_true, hgr, hu]
    split
    · simp [gatherEffects]
    · split
      · simp [gatherEffects]
      · split
        · simp [gatherEffects]
        · simp [gatherEffects]

/-! ### Instantiated witnesses -/

/-- C2 instantiated on a one-result group with no gists. -/
theorem c2_section_fields_witness :
    (∃ b₁ b₂, formatAssertResults [("https://a.com/", [wRes])] 1 []
        = b₁ ++ formatGroup 1 [] [wRes] ++ b₂)
  ∧ ∃ text color fields rest,
      formatGroup 1 [] [wRes] = [Block.sec text color fields, rest]
      ∧ ([wRes].length = 0 → fields = [])
      ∧ (0 < [wRes].length →
          fields = ([wRes].map resultField).take 2 ++ [ellipsisField]
          ∧ fields.length = min 2 [wRes].length + 1
          ∧ fields.getLast? = some ellipsisField) :=
  c2_section_fields [("https://a.com/", [wRes])] 1 [] [wRes] (by simp)

/-- C3 instantiated on a one-result group. -/
theorem c3_headline_off_by_one_witness :
    (∃ b₁ b₂, formatAssertResults [("https://a.com/", [wRes])] 0 []
        = b₁ ++ formatGroup 0 [] [wRes] ++ b₂)
  ∧ ∃ color fields rest,
      formatGroup 0 [] [wRes]
        = [Block.sec (toString ([wRes].length + 1) ++ " result(s) for "
              ++ (Option.map LHResult.url [wRes].head?).getD "") color fields, rest] :=
  c3_headline_off_by_one [("https://a.com/", [wRes])] 0 [] [wRes] (by simp)

/-- C9 instantiated with one matching gist. -/
theorem c9_report_link_witness :
    (∃ b₁ b₂, formatAssertResults [("https://a.com/", [wRes])] 0
          [some ⟨"https://a.com/", ["gid"], "v1"⟩]
        = b₁ ++ formatGroup 0 [some ⟨"https://a.com/", ["gid"], "v1"⟩] [wRes] ++ b₂)
  ∧ ((∃ x ∈ [(some ⟨"https://a.com/", ["gid"], "v1"⟩ : Gist)],
        gistUrlMatches x ((Option.map LHResult.url [wRes].head?).getD "") = true) →
      ∃ d secBlock,
        [(some ⟨"https://a.com/", ["gid"], "v1"⟩ : Gist)].find?
            (fun x => gistUrlMatches x ((Option.map LHResult.url [wRes].head?).getD ""))
          = some (some d)
        ∧ formatGroup 0 [some ⟨"https://a.com/", ["gid"], "v1"⟩] [wRes]
          = [secBlock,
             Block.link "View Detailed Lighthouse Report"
               ("https://googlechrome.github.io/lighthouse/viewer/?gist="
                 ++ joinSep "," d.id ++ "/" ++ d.sha)
               (if (0 : Int) = 0 then "good" else "danger")])
  ∧ ((∀ x ∈ [(some ⟨"https://a.com/", ["gid"], "v1"⟩ : Gist)],
        gistUrlMatches x ((Option.map LHResult.url [wRes].head?).getD "") = false) →
      ∃ secBlock, formatGroup 0 [some ⟨"https://a.com/", ["gid"], "v1"⟩] [wRes]
        = [secBlock, Block.empty]) :=
  c9_report_link [("https://a.com/", [wRes])] 0 [some ⟨"https://a.com/", ["gid"], "v1"⟩]
    [wRes] (by simp)

/-- C1 instantiated on a store already holding the derived archive name. -/
theorem c1_dedup_update_or_create_witness :
    ((∃ g ∈ wStore.existing, gistNameFor "o/r" ((some "https://a.com/").getD "") ∈ g.files) →
      ∃ g, wStore.existing.find?
            (fun x => gistHasFile x (gistNameFor "o/r" ((some "https://a.com/").getD "")))
          = some g
        ∧ gistNameFor "o/r" ((some "https://a.com/").getD "") ∈ g.files
        ∧ (∃ ref, uploadResultToGist wStore "o/r" "tok" "lhr-1.json" wFile
            = Except.ok ([GistCall.update g.id], some ref))
        ∧ GistCall.create ∉ [GistCall.update g.id])
  ∧ ((∀ g ∈ wStore.existing, gistNameFor "o/r" ((some "https://a.com/").getD "") ∉ g.files) →
      ∃ ref, uploadResultToGist wStore "o/r" "tok" "lhr-1.json" wFile
        = Except.ok ([GistCall.create], some ref)) :=
  c1_dedup_update_or_create wStore "o/r" "tok" "lhr-1.json" wFile (some "https://a.com/")
    (by decide) (by decide) rfl

/-- C10 instantiated on a slash-free response id with empty history. -/
theorem c10_reference_shape_witness :
    (∃ calls, uploadResultToGist wStore2 "o/r" "tok" "lhr-1.json" wFile
        = Except.ok (calls,
            some { url := (some "https://a.com/").getD "",
                   id := jsSplitChar '/' wStore2.resp.id,
                   sha := (wStore2.resp.history.head?).getD "" }))
  ∧ jsSplitChar '/' wStore2.resp.id = [wStore2.resp.id]
  ∧ (wStore2.resp.history.head?).getD "" = "" := by
  have h := c10_reference_shape wStore2 "o/r" "tok" "lhr-1.json" wFile (some "https://a.com/")
    (by decide) (by decide) rfl
  exact ⟨h.1, h.2.1 (by decide), h.2.2 rfl⟩

/-- C4 amended, instantiated on a malformed raw result file. -/
theorem c4_failures_propagate_witness :
    uploadResultToGist wStore "o/r" "tok" "lhr-2.json" ⟨"oops", none⟩
      = Except.error JsErr.parseError :=
  (c4_failures_propagate wStore "o/r" "tok" "lhr-2.json" ⟨"oops", none⟩).1
    (by decide) (by decide) rfl

/-- C6 instantiated: a gated-off run is a no-op, and an `error`-level
failing run with both channels disabled resolves after the gather phase. -/
theorem c6_run_gate_witness :
    run quietEnv 1 = ([], Except.ok ())
  ∧ run disabledEnv 1 = (gatherEffects, Except.ok ()) := by
  refine ⟨(c6_run_gate quietEnv 1).1 (by decide), ?_⟩
  exact ((c6_run_gate disabledEnv 1).2 rfl (by decide) rfl rfl).2 [] [none] rfl rfl

/-- C7 instantiated on an environment with no aggregate results file. -/
theorem c7_missing_aggregate_witness :
    getGroupedAssertionResultsByURL missingEnv.assertionResultsFile = Except.ok []
  ∧ (run missingEnv 0).2 = Except.ok ()
  ∧ Effect.resolveChanges ∈ (run missingEnv 0).1 :=
  c7_missing_aggregate missingEnv 0 rfl (Or.inl rfl) ⟨[none], rfl⟩

end LHCI
